import Mathlib

/-!
Verification of the Classification & Scan-Orchestration Engine of
`add_repos.py` (bulk SonarQube repository onboarding script).

The script is embedded shallowly:

* The filesystem tree handed to `Path.rglob("*")` is a `List FSEntry` in
  traversal order; each entry records whether it is a regular file, whether
  it sits at the repository root, and its final path component (name).
* `Path.suffix` / `str.lower` are reimplemented over character lists
  (`pySuffix`, `lowerStr`) following the pathlib rule
  `0 < name.rfind(".") < len(name) - 1`.
* External commands and HTTP calls are opaque: their exit status is an
  oracle boolean carried by an environment record, and each invocation is
  recorded as an `Event.cmd` entry in a trace.  `bump_stat` increments are
  recorded as `Event.bump` entries; since every increment is taken under
  `stats_lock` and counters only grow, the final counter values are the
  bump-counts of the trace, independent of thread interleaving.
* Python exceptions are `Except String Unit`: `subprocess.run(check=True)`
  on a failing command emits its `cmd` event and then returns `error`;
  `check=False` never errors; `try/except` is a `match` on the result.
-/

/-- One entry yielded by the recursive directory walk (`repo_dir.rglob("*")`),
in traversal order.  `isFile` models `f.is_file()`; `atRoot` marks entries
whose parent is the repository root (used by the root-level existence checks
`(repo_dir / "pom.xml").exists()`, `repo_dir.glob("*.sln")`,
`(repo_dir / "go.mod").exists()`); `name` is the final path component. -/
structure FSEntry where
  isFile : Bool
  atRoot : Bool
  name : String
deriving DecidableEq, Repr

/-- Characters strictly after the last dot of the list, or `none` when the
list has no dot. -/
def suffixFrom : List Char → Option (List Char)
  | [] => none
  | c :: rest =>
      match suffixFrom rest with
      | some s => some s
      | none => if c = '.' then some rest else none

/-- Python `pathlib.PurePath.suffix` on a final path component: with
`i = name.rfind(".")`, the suffix is `name[i:]` when `0 < i < len(name)-1`
and `""` otherwise. -/
def pySuffix (name : String) : String :=
  match suffixFrom name.data with
  | none => ""
  | some after =>
      if after.isEmpty then ""
      else if name.data.length = after.length + 1 then ""
      else String.mk ('.' :: after)

/-- Python `str.lower()` (ASCII case folding suffices for the extension
literals involved). -/
def lowerStr (s : String) : String := String.mk (s.data.map Char.toLower)

/-- Value of `f.suffix.lower()` for a walk entry. -/
def entrySuffix (f : FSEntry) : String := lowerStr (pySuffix f.name)

/-- The `code_ext` tuple of `classify_repo` (add_repos.py line 178). -/
def code_ext : List String := [".java", ".py", ".js", ".ts", ".go", ".cs", ".cpp", ".rb", ".php"]

/-- The `yaml_ext` tuple of `classify_repo` (line 179). -/
def yaml_ext : List String := [".yaml", ".yml"]

/-- The `tf_ext` tuple of `classify_repo` (line 180). -/
def tf_ext : List String := [".tf"]

/-- The tag set built after the walk in `classify_repo` (lines 199-206):
start from an empty set, `add("config")`, then `add("yaml")` when a YAML
file was seen and `add("terraform")` when a Terraform file was seen. -/
def configTags (hy ht : Bool) : Finset String :=
  let t0 : Finset String := insert "config" ∅
  let t1 := if hy then insert "yaml" t0 else t0
  if ht then insert "terraform" t1 else t1

/-- The `for f in repo_dir.rglob("*")` loop of `classify_repo`
(lines 185-208), with the two accumulator booleans `has_yaml` / `has_tf`
made explicit.  Non-files are skipped; a `.jmx` suffix returns
`("jmeter", {"jmeter","performance"})` immediately; a source-code suffix
returns `("code", {"code"})` immediately; YAML / Terraform suffixes only
set the flags and the walk continues. -/
def classifyLoop : List FSEntry → Bool → Bool → String × Finset String
  | [], hy, ht =>
      if hy || ht then ("config", configTags hy ht)
      else ("empty", (∅ : Finset String))
  | f :: rest, hy, ht =>
      if f.isFile = false then classifyLoop rest hy ht
      else
        let s := entrySuffix f
        if s = ".jmx" then ("jmeter", ({"jmeter", "performance"} : Finset String))
        else if s ∈ code_ext then ("code", ({"code"} : Finset String))
        else
          classifyLoop rest (hy || decide (s ∈ yaml_ext)) (ht || decide (s ∈ tf_ext))

/-- Model of `classify_repo(repo_dir)` (lines 177-208): run the walk with both flags
initially false. -/
def classify_repo (files : List FSEntry) : String × Finset String :=
  classifyLoop files false false

example : classify_repo [⟨true, true, "plan.jmx"⟩] = ("jmeter", {"jmeter", "performance"}) := by decide

example : classify_repo [⟨true, true, "Main.java"⟩, ⟨true, true, "plan.jmx"⟩] =
    ("code", {"code"}) := by decide

example : classify_repo [⟨true, true, "a.yaml"⟩, ⟨true, false, "b.tf"⟩] =
    ("config", {"terraform", "yaml", "config"}) := by decide

example : classify_repo [⟨true, true, "README.md"⟩, ⟨false, true, "src"⟩] =
    ("empty", (∅ : Finset String)) := by decide

/-- The first walk entry that short-circuits `classify_repo`: `some true`
when it is a performance-test (`.jmx`) file, `some false` when it is a
source-code file, `none` when no entry short-circuits. -/
def firstHit : List FSEntry → Option Bool
  | [] => none
  | f :: rest =>
      if f.isFile = false then firstHit rest
      else if entrySuffix f = ".jmx" then some true
      else if entrySuffix f ∈ code_ext then some false
      else firstHit rest

/-- Some regular file in the walk has a YAML suffix. -/
def anyY (files : List FSEntry) : Bool :=
  files.any (fun f => f.isFile && decide (entrySuffix f ∈ yaml_ext))

/-- Some regular file in the walk has a Terraform suffix. -/
def anyT (files : List FSEntry) : Bool :=
  files.any (fun f => f.isFile && decide (entrySuffix f ∈ tf_ext))

/-- Closed-form characterization of `classifyLoop`: the result is decided
by the first short-circuiting file, and otherwise by which
infrastructure-as-code kinds occur anywhere in the walk. -/
def classifySpec (files : List FSEntry) (hy ht : Bool) : String × Finset String :=
  match firstHit files with
  | some true => ("jmeter", ({"jmeter", "performance"} : Finset String))
  | some false => ("code", ({"code"} : Finset String))
  | none =>
      let hy2 := hy || anyY files
      let ht2 := ht || anyT files
      if hy2 || ht2 then ("config", configTags hy2 ht2)
      else ("empty", (∅ : Finset String))

theorem classifyLoop_eq_spec (files : List FSEntry) :
    ∀ hy ht, classifyLoop files hy ht = classifySpec files hy ht := by
  induction files with
  | nil =>
      intro hy ht
      simp [classifyLoop, classifySpec, firstHit, anyY, anyT]
  | cons f rest ih =>
      intro hy ht
      by_cases hf : f.isFile = false
      · simp [classifyLoop, classifySpec, firstHit, anyY, anyT, hf, ih hy ht,
          List.any_cons]
      · have hf' : f.isFile = true := by
          cases h : f.isFile
          · exact absurd h hf
          · rfl
        by_cases hjmx : entrySuffix f = ".jmx"
        · simp [classifyLoop, classifySpec, firstHit, hf', hjmx]
        · by_cases hcode : entrySuffix f ∈ code_ext
          · simp [classifyLoop, classifySpec, firstHit, hf', hjmx, hcode]
          · have := ih (hy || decide (entrySuffix f ∈ yaml_ext))
              (ht || decide (entrySuffix f ∈ tf_ext))
            simp only [classifyLoop, classifySpec, firstHit, hf', hjmx, hcode,
              if_false, if_true, this, anyY, anyT, List.any_cons]
            simp [Bool.or_assoc]

theorem classify_repo_eq_spec (files : List FSEntry) :
    classify_repo files = classifySpec files false false := by
  simpa [classify_repo] using classifyLoop_eq_spec files false false

theorem isFile_true_of_not_false {f : FSEntry} (h : ¬ f.isFile = false) :
    f.isFile = true := by
  cases hf : f.isFile
  · exact absurd hf h
  · rfl

theorem firstHit_none_of (files : List FSEntry)
    (h : ∀ f ∈ files, f.isFile = true → entrySuffix f ≠ ".jmx" ∧ entrySuffix f ∉ code_ext) :
    firstHit files = none := by
  induction files with
  | nil => rfl
  | cons f rest ih =>
      have htail := ih fun g hg => h g (List.mem_cons_of_mem f hg)
      by_cases hf : f.isFile = false
      · simpa [firstHit, hf] using htail
      · have hf' := isFile_true_of_not_false hf
        have hfspec := h f (List.mem_cons_self f rest) hf'
        simpa [firstHit, hf', hfspec.1, hfspec.2] using htail

theorem firstHit_jmx (pre post : List FSEntry) (f : FSEntry)
    (hf : f.isFile = true) (hjmx : entrySuffix f = ".jmx")
    (hpre : ∀ g ∈ pre, g.isFile = true → entrySuffix g ∉ code_ext) :
    firstHit (pre ++ f :: post) = some true := by
  induction pre with
  | nil => simp [firstHit, hf, hjmx]
  | cons g pre ih =>
      have htail : firstHit (pre ++ f :: post) = some true :=
        ih fun x hx => hpre x (List.mem_cons_of_mem g hx)
      by_cases hgf : g.isFile = false
      · simpa [firstHit, hgf] using htail
      · have hgf' := isFile_true_of_not_false hgf
        by_cases hgj : entrySuffix g = ".jmx"
        · simp [firstHit, hgf', hgj]
        · have hgc : entrySuffix g ∉ code_ext :=
            hpre g (List.mem_cons_self g pre) hgf'
          simpa [firstHit, hgf', hgj, hgc] using htail

/-- Repository tree whose traversal yields a source file before the
performance-test marker file. -/
def codeBeforeJmx : List FSEntry :=
  [⟨true, true, "Main.java"⟩, ⟨true, true, "plan.jmx"⟩]

/-- C1 (counterexample): a tree containing both a `.jmx` file and a
recognized source file, traversed with the source file first, is classified
`"code"`, not the performance-test category — `classify_repo` short-circuits
on the first matching file, so the result depends on traversal order. -/
theorem C1_counterexample :
    (∃ f ∈ codeBeforeJmx, f.isFile = true ∧ entrySuffix f = ".jmx") ∧
    (∃ f ∈ codeBeforeJmx, f.isFile = true ∧ entrySuffix f ∈ code_ext) ∧
    (classify_repo codeBeforeJmx).1 = "code" ∧
    (classify_repo codeBeforeJmx).1 ≠ "jmeter" := by decide

/-- C1 (amended): for every directory tree containing a `.jmx` file, if no
file with a recognized source-code extension precedes it in the traversal
order, `classify_repo` returns the performance-test category `"jmeter"`. -/
theorem C1_amended_thm (pre post : List FSEntry) (f : FSEntry)
    (hf : f.isFile = true) (hjmx : entrySuffix f = ".jmx")
    (hpre : ∀ g ∈ pre, g.isFile = true → entrySuffix g ∉ code_ext) :
    (classify_repo (pre ++ f :: post)).1 = "jmeter" := by
  rw [classify_repo_eq_spec]
  simp [classifySpec, firstHit_jmx pre post f hf hjmx hpre]

theorem C1_amended_witness :
    (classify_repo [⟨true, true, "notes.txt"⟩, ⟨true, true, "plan.jmx"⟩,
      ⟨true, false, "Main.java"⟩]).1 = "jmeter" :=
  C1_amended_thm [⟨true, true, "notes.txt"⟩] [⟨true, false, "Main.java"⟩]
    ⟨true, true, "plan.jmx"⟩ (by decide) (by decide) (by decide)

theorem iac_not_hit (s : String) (h : s ∈ yaml_ext ∨ s ∈ tf_ext) :
    s ≠ ".jmx" ∧ s ∉ code_ext := by
  rcases h with h | h
  · have h2 : s = ".yaml" ∨ s = ".yml" := by simpa [yaml_ext] using h
    rcases h2 with rfl | rfl <;> decide
  · have h2 : s = ".tf" := by simpa [tf_ext] using h
    subst h2; decide

theorem anyY_or_anyT_of (files : List FSEntry)
    (hne : files.any (fun f => f.isFile) = true)
    (hall : ∀ f ∈ files, f.isFile = true →
      entrySuffix f ∈ yaml_ext ∨ entrySuffix f ∈ tf_ext) :
    (anyY files || anyT files) = true := by
  rcases List.any_eq_true.mp hne with ⟨f, hmem, hfile⟩
  rcases hall f hmem hfile with h | h
  · have : anyY files = true :=
      List.any_eq_true.mpr ⟨f, hmem, by simp [hfile, h]⟩
    simp [this]
  · have : anyT files = true :=
      List.any_eq_true.mpr ⟨f, hmem, by simp [hfile, h]⟩
    simp [this]

theorem anyY_eq_false_of (files : List FSEntry)
    (h : ∀ f ∈ files, f.isFile = true → entrySuffix f ∉ yaml_ext) :
    anyY files = false := by
  simp only [anyY, List.any_eq_false, Bool.and_eq_true, decide_eq_true_eq, not_and]
  exact fun f hf hfile => h f hf hfile

theorem anyT_eq_false_of (files : List FSEntry)
    (h : ∀ f ∈ files, f.isFile = true → entrySuffix f ∉ tf_ext) :
    anyT files = false := by
  simp only [anyT, List.any_eq_false, Bool.and_eq_true, decide_eq_true_eq, not_and]
  exact fun f hf hfile => h f hf hfile

theorem mem_configTags_yaml (hy ht : Bool) :
    ("yaml" ∈ configTags hy ht) ↔ hy = true := by
  cases hy <;> cases ht <;> decide

theorem mem_configTags_tf (hy ht : Bool) :
    ("terraform" ∈ configTags hy ht) ↔ ht = true := by
  cases hy <;> cases ht <;> decide

theorem mem_configTags_config (hy ht : Bool) : "config" ∈ configTags hy ht := by
  cases hy <;> cases ht <;> decide

/-- C6: (a) for every tree with at least one regular file in which every
regular file has an infrastructure-as-code suffix (YAML/YML or Terraform),
`classify_repo` returns category `"config"` and the tag set contains
`"yaml"` exactly when a YAML file is present and `"terraform"` exactly when
a Terraform file is present; (b) for every tree with no file of any
recognized kind, it returns `("empty", ∅)`. -/
theorem C6_theorem :
    (∀ files : List FSEntry,
      files.any (fun f => f.isFile) = true →
      (∀ f ∈ files, f.isFile = true →
        entrySuffix f ∈ yaml_ext ∨ entrySuffix f ∈ tf_ext) →
      (classify_repo files).1 = "config" ∧
      ("yaml" ∈ (classify_repo files).2 ↔ anyY files = true) ∧
      ("terraform" ∈ (classify_repo files).2 ↔ anyT files = true)) ∧
    (∀ files : List FSEntry,
      (∀ f ∈ files, f.isFile = true →
        entrySuffix f ≠ ".jmx" ∧ entrySuffix f ∉ code_ext ∧
        entrySuffix f ∉ yaml_ext ∧ entrySuffix f ∉ tf_ext) →
      classify_repo files = ("empty", (∅ : Finset String))) := by
  constructor
  · intro files hne hall
    have hfh : firstHit files = none :=
      firstHit_none_of files fun f hm hf => iac_not_hit _ (hall f hm hf)
    have hor : (anyY files || anyT files) = true := anyY_or_anyT_of files hne hall
    rw [classify_repo_eq_spec]
    simp only [classifySpec, hfh, Bool.false_or, hor, if_true]
    refine ⟨by simp, ?_, ?_⟩ <;> simp [mem_configTags_yaml, mem_configTags_tf]
  · intro files hall
    have hfh : firstHit files = none :=
      firstHit_none_of files fun f hm hf => ⟨(hall f hm hf).1, (hall f hm hf).2.1⟩
    have hy : anyY files = false :=
      anyY_eq_false_of files fun f hm hf => (hall f hm hf).2.2.1
    have ht : anyT files = false :=
      anyT_eq_false_of files fun f hm hf => (hall f hm hf).2.2.2
    rw [classify_repo_eq_spec]
    simp [classifySpec, hfh, hy, ht]

theorem C6_theorem_witness :
    ((classify_repo [⟨true, true, "deploy.yaml"⟩]).1 = "config" ∧
      "yaml" ∈ (classify_repo [⟨true, true, "deploy.yaml"⟩]).2) ∧
    classify_repo [⟨true, true, "README.md"⟩] = ("empty", (∅ : Finset String)) := by
  refine ⟨⟨(C6_theorem.1 _ (by decide) (by decide)).1, ?_⟩,
    C6_theorem.2 _ (by decide)⟩
  exact ((C6_theorem.1 [⟨true, true, "deploy.yaml"⟩] (by decide) (by decide)).2.1).mpr
    (by decide)

/-- C10: the category returned by `classify_repo` is always one of
`"jmeter"`, `"code"`, `"config"`, `"empty"`; the tag set is empty exactly
when the category is `"empty"`; `"code"` always carries exactly the tag set
containing `"code"`, `"jmeter"` exactly the set containing `"jmeter"` and
`"performance"`, and `"config"` always includes the tag `"config"`. -/
theorem C10_theorem (files : List FSEntry) :
    ((classify_repo files).1 = "jmeter" ∨ (classify_repo files).1 = "code" ∨
      (classify_repo files).1 = "config" ∨ (classify_repo files).1 = "empty") ∧
    ((classify_repo files).2 = (∅ : Finset String) ↔ (classify_repo files).1 = "empty") ∧
    ((classify_repo files).1 = "code" →
      (classify_repo files).2 = ({"code"} : Finset String)) ∧
    ((classify_repo files).1 = "jmeter" →
      (classify_repo files).2 = ({"jmeter", "performance"} : Finset String)) ∧
    ((classify_repo files).1 = "config" → "config" ∈ (classify_repo files).2) := by
  rw [classify_repo_eq_spec]
  rcases hfh : firstHit files with _ | b
  · cases hy : anyY files <;> cases ht : anyT files <;>
      simp only [classifySpec, hfh, hy, ht, Bool.false_or] <;> decide
  · cases b <;> simp only [classifySpec, hfh] <;> decide

theorem C10_theorem_witness :
    (classify_repo [⟨true, true, "Main.java"⟩]).2 = ({"code"} : Finset String) ∧
    (classify_repo ([] : List FSEntry)).2 = (∅ : Finset String) :=
  ⟨(C10_theorem [⟨true, true, "Main.java"⟩]).2.2.1 (by decide),
    ((C10_theorem ([] : List FSEntry)).2.1).mpr (by decide)⟩

/-- Observable effects of a job: `cmd` records one external command
invocation (subprocess or mutating HTTP POST), `bump` records one
`bump_stat(key)` increment taken under `stats_lock`. -/
inductive Event
  | cmd (name : String)
  | bump (key : String)
deriving DecidableEq, Repr

/-- Model of `run_scanner(cmd, repo_dir)` (lines 238-240): launch the scanner
process (`check=True`, so a nonzero exit raises) and on success increment
the `scanned` counter.  `ok` is the scanner process exit status and
`cname` identifies which scanner command line was launched. -/
def run_scanner (ok : Bool) (cname : String) : List Event × Except String Unit :=
  if ok then ([Event.cmd cname, Event.bump "scanned"], Except.ok ())
  else ([Event.cmd cname], Except.error "scanner failed")

/-- Outcome oracle for the Java pipeline: `mavenBuildOk` is the exit status
of the `mvn clean ... test ... package` invocation (line 261, `check=True`);
`binaries` / `coverageReports` are the `target/classes` directories and
Jacoco XML reports found on disk after the build (`find_java_binaries`,
`find_jacoco_reports`, lines 264-275 — they only add CLI arguments);
`scannerOk` is the exit status of the `mvn sonar:sonar` invocation. -/
structure JavaEnv where
  mavenBuildOk : Bool
  binaries : List String
  coverageReports : List String
  scannerOk : Bool
deriving DecidableEq, Repr

/-- Model of `scan_java(repo_dir, key, name)` (lines 413-449): run the Maven
build+test; if it raises, re-raise `RuntimeError` without scanning; if no
compiled classes are found, raise without scanning; otherwise invoke the
Sonar Maven scanner through `run_scanner`. -/
def scan_java (env : JavaEnv) : List Event × Except String Unit :=
  if env.mavenBuildOk = false then
    ([Event.cmd "mvn-build"], Except.error "Maven build failed")
  else if env.binaries.isEmpty then
    ([Event.cmd "mvn-build"], Except.error "Missing compiled classes after build")
  else
    let r := run_scanner env.scannerOk "mvn-sonar"
    (Event.cmd "mvn-build" :: r.1, r.2)

/-- C3: in the Java pipeline, when the Maven build/test step fails the
pipeline raises without ever invoking the scanner: the trace contains no
Sonar scanner invocation and no `scanned` increment, and the result is the
re-raised build error. -/
theorem C3_theorem (env : JavaEnv) (h : env.mavenBuildOk = false) :
    Event.cmd "mvn-sonar" ∉ (scan_java env).1 ∧
    Event.bump "scanned" ∉ (scan_java env).1 ∧
    (scan_java env).2 = Except.error "Maven build failed" := by
  simp [scan_java, h]

theorem C3_theorem_witness :
    Event.cmd "mvn-sonar" ∉ (scan_java ⟨false, [], [], true⟩).1 ∧
    Event.bump "scanned" ∉ (scan_java ⟨false, [], [], true⟩).1 ∧
    (scan_java ⟨false, [], [], true⟩).2 = Except.error "Maven build failed" :=
  C3_theorem ⟨false, [], [], true⟩ (by decide)

/-- The check `(repo_dir / "pom.xml").exists()` (line 602). -/
def rootHasPom (files : List FSEntry) : Bool :=
  files.any (fun f => f.atRoot && f.name == "pom.xml")

/-- Model of `find_csproj_files(repo_dir)` (lines 281-282): every walk entry whose
name matches the glob pattern `*.csproj`. -/
def find_csproj_files (files : List FSEntry) : List FSEntry :=
  files.filter (fun f => ".csproj".data.isSuffixOf f.name.data)

/-- The check `any(repo_dir.rglob("*.cs"))` (line 606). -/
def hasCsFile (files : List FSEntry) : Bool :=
  files.any (fun f => ".cs".data.isSuffixOf f.name.data)

/-- The check `any(repo_dir.rglob("*.py"))` (line 610). -/
def hasPyFile (files : List FSEntry) : Bool :=
  files.any (fun f => ".py".data.isSuffixOf f.name.data)

/-- The check `(repo_dir / "go.mod").exists()` (line 614). -/
def rootHasGoMod (files : List FSEntry) : Bool :=
  files.any (fun f => f.atRoot && f.name == "go.mod")

/-- The check `any(repo_dir.rglob("*.go"))` (line 614). -/
def hasGoFile (files : List FSEntry) : Bool :=
  files.any (fun f => ".go".data.isSuffixOf f.name.data)

/-- The glob `repo_dir.glob("*.sln")` (line 343): top-level entries matching `*.sln`. -/
def rootSlnFiles (files : List FSEntry) : List FSEntry :=
  files.filter (fun f => f.atRoot && ".sln".data.isSuffixOf f.name.data)

/-- The branch taken by `detect_and_scan` (lines 529-629), in source order:
the three classification branches (`jmeter`, `config`, `empty`), then the
Java marker, the .NET markers, the Python marker, the Go markers, and the
generic fallback. -/
def detect_choice (files : List FSEntry) : String :=
  let cat := (classify_repo files).1
  if cat = "jmeter" then "jmeter"
  else if cat = "config" then "config"
  else if cat = "empty" then "empty"
  else if rootHasPom files then "java"
  else if !(find_csproj_files files).isEmpty || hasCsFile files then "dotnet"
  else if hasPyFile files then "python"
  else if rootHasGoMod files || hasGoFile files then "go"
  else "generic"

/-- Root `pom.xml` next to a performance-test marker file. -/
def pomAndJmx : List FSEntry :=
  [⟨true, true, "pom.xml"⟩, ⟨true, true, "plan.jmx"⟩]

/-- C8 (counterexample): a repository whose root contains `pom.xml` is not
always routed to the Java executor — the classification branches run
first, so a tree holding `pom.xml` and a `.jmx` file takes the
performance-test branch, never reaching the Java marker check. -/
theorem C8_counterexample :
    rootHasPom pomAndJmx = true ∧ detect_choice pomAndJmx ≠ "java" := by decide

/-- C8 (amended): for every repository whose root contains `pom.xml` and
whose classification is `"code"` (the only case that reaches the ecosystem
marker checks), the dispatcher selects the Java executor, regardless of
what other source files are present anywhere in the tree. -/
theorem C8_amended_thm (files : List FSEntry)
    (hpom : rootHasPom files = true)
    (hcode : (classify_repo files).1 = "code") :
    detect_choice files = "java" := by
  simp [detect_choice, hcode, hpom]

theorem C8_amended_witness :
    detect_choice [⟨true, true, "pom.xml"⟩, ⟨true, false, "Main.java"⟩,
      ⟨true, false, "script.py"⟩] = "java" :=
  C8_amended_thm _ (by decide) (by decide)

/-- Exit statuses of the external commands of the .NET pipeline.
`restoreOk`, `endOk` belong to `check=False` invocations (lines 371, 392)
and `buildOk`, `testOk` to invocations wrapped in their own
`try/except` (lines 374-389), so none of these four can abort the
pipeline; they are carried so the theorems quantify over them. -/
structure DotnetSteps where
  newSlnOk : Bool
  slnAddAllOk : Bool
  beginOk : Bool
  restoreOk : Bool
  buildOk : Bool
  testOk : Bool
  endOk : Bool
  fallbackOk : Bool
deriving DecidableEq, Repr

/-- Inputs of `scan_dotnet`: whether a top-level solution file exists, the
`*.csproj` walk matches, whether any `*.cs` file exists, and the command
exit statuses. -/
structure DotnetEnv where
  hasSln : Bool
  csprojs : List String
  hasCs : Bool
  steps : DotnetSteps
deriving DecidableEq, Repr

/-- Model of `generate_temp_solution(repo_dir)` (lines 311-336): `dotnet new sln`
(`check=True`); when the repo has no project but has C# sources, write a
temporary `.csproj` (filesystem write, no command); link every project with
`dotnet sln add` (`check=True` — the per-command exit statuses are
collapsed into the single oracle `slnAddAllOk`, with a failure modelled at
the first link); finally `dotnet sln list` (no `check`). -/
def generate_temp_solution (env : DotnetEnv) : List Event × Except String Unit :=
  if env.steps.newSlnOk = false then
    ([Event.cmd "dotnet-new-sln"], Except.error "dotnet new sln failed")
  else
    let projs := if env.csprojs.isEmpty && env.hasCs then
      ["TempScannerProject.csproj"] else env.csprojs
    if projs.isEmpty then
      ([Event.cmd "dotnet-new-sln", Event.cmd "dotnet-sln-list"], Except.ok ())
    else if env.steps.slnAddAllOk then
      (Event.cmd "dotnet-new-sln" :: projs.map (fun _ => Event.cmd "dotnet-sln-add")
        ++ [Event.cmd "dotnet-sln-list"], Except.ok ())
    else
      ([Event.cmd "dotnet-new-sln", Event.cmd "dotnet-sln-add"],
        Except.error "dotnet sln add failed")

/-- Model of `scan_dotnet(repo_dir, key, name)` (lines 339-410).  Solution
preparation (lines 343-353) runs before the `try` block: an existing
top-level solution is used as is, otherwise `generate_temp_solution` runs
(its exception propagates — no fallback) followed by `check=False` re-links.
Inside the `try`: `dotnet sonarscanner begin` (`check=True`), `dotnet
restore` (`check=False`), `dotnet build` and `dotnet test` (each in its own
`try/except`), `dotnet sonarscanner end` (`check=False`), then
`bump_stat("scanned")`.  The `except` clause (lines 400-410) downgrades to
the generic sources-only scanner via `run_scanner`. -/
def scan_dotnet (env : DotnetEnv) : List Event × Except String Unit :=
  let prep : List Event × Except String Unit :=
    if env.hasSln then ([], Except.ok ())
    else
      let g := generate_temp_solution env
      match g.2 with
      | Except.error m => (g.1, Except.error m)
      | Except.ok _ =>
          (g.1 ++ env.csprojs.map (fun _ => Event.cmd "dotnet-sln-add-nocheck"),
            Except.ok ())
  match prep.2 with
  | Except.error m => (prep.1, Except.error m)
  | Except.ok _ =>
      let tryBlock : List Event × Except String Unit :=
        if env.steps.beginOk = false then
          ([Event.cmd "sonarscanner-begin"], Except.error "sonarscanner begin failed")
        else
          ([Event.cmd "sonarscanner-begin", Event.cmd "dotnet-restore",
            Event.cmd "dotnet-build", Event.cmd "dotnet-test",
            Event.cmd "sonarscanner-end", Event.bump "scanned"], Except.ok ())
      match tryBlock.2 with
      | Except.ok _ => (prep.1 ++ tryBlock.1, Except.ok ())
      | Except.error _ =>
          let fb := run_scanner env.steps.fallbackOk "sonar-scanner-generic"
          (prep.1 ++ tryBlock.1 ++ fb.1, fb.2)

deriving instance DecidableEq for Except

theorem begin_not_in_prep (env : DotnetEnv) :
    Event.cmd "sonarscanner-begin" ∉ (generate_temp_solution env).1 := by
  unfold generate_temp_solution
  repeat' split
  all_goals try simp [List.mem_append, List.mem_replicate, List.mem_map]
  all_goals repeat' split
  all_goals simp [List.mem_append, List.mem_replicate, List.mem_map]

/-- C4: in the .NET pipeline, once the scanner-begin step has been invoked
and has succeeded, the scanner-end step is executed and the `scanned`
counter is incremented, whatever the outcomes of the restore, build and
test steps (`env.steps.restoreOk`, `buildOk`, `testOk` are universally
quantified and the result is the successful completion of the pipeline). -/
theorem C4_theorem (env : DotnetEnv)
    (hbegin : Event.cmd "sonarscanner-begin" ∈ (scan_dotnet env).1)
    (hok : env.steps.beginOk = true) :
    Event.cmd "sonarscanner-end" ∈ (scan_dotnet env).1 ∧
    Event.bump "scanned" ∈ (scan_dotnet env).1 ∧
    (scan_dotnet env).2 = Except.ok () := by
  unfold scan_dotnet at hbegin ⊢
  by_cases hsln : env.hasSln
  · simp [hsln, hok]
  · rcases hg : (generate_temp_solution env).2 with m | u
    · exfalso
      simp only [hsln, if_false, hg] at hbegin
      exact begin_not_in_prep env hbegin
    · simp [hsln, hg, hok]

theorem C4_theorem_witness :
    Event.cmd "sonarscanner-end" ∈
      (scan_dotnet ⟨true, [], true, ⟨true, true, true, false, false, false, true, true⟩⟩).1 ∧
    Event.bump "scanned" ∈
      (scan_dotnet ⟨true, [], true, ⟨true, true, true, false, false, false, true, true⟩⟩).1 ∧
    (scan_dotnet ⟨true, [], true, ⟨true, true, true, false, false, false, true, true⟩⟩).2 =
      Except.ok () :=
  C4_theorem ⟨true, [], true, ⟨true, true, true, false, false, false, true, true⟩⟩
    (by decide) (by decide)

/-- Environment in which the solution-preparation phase of `scan_dotnet`
throws: no top-level solution exists and `dotnet new sln` fails. -/
def dotnetPrepCrash : DotnetEnv :=
  ⟨false, [], true, ⟨false, true, true, true, true, true, true, true⟩⟩

/-- C9 (counterexample): `scan_dotnet` can throw before reaching the
scanner-end step without falling back to the generic scanner — when
`dotnet new sln` fails during solution preparation (which precedes the
`try` block), the exception propagates, no scanner-end is executed and no
generic sources-only scan is invoked, so the job is marked failed. -/
theorem C9_counterexample :
    (scan_dotnet dotnetPrepCrash).2 = Except.error "dotnet new sln failed" ∧
    Event.cmd "sonarscanner-end" ∉ (scan_dotnet dotnetPrepCrash).1 ∧
    Event.cmd "sonar-scanner-generic" ∉ (scan_dotnet dotnetPrepCrash).1 := by decide

/-- C9 (amended): if the protected scan phase of `scan_dotnet` throws
before reaching the scanner-end step — that is, the scanner-begin step was
invoked and failed — control falls back to the generic sources-only
scanner invocation, and when that fallback scan succeeds the job completes
without error. -/
theorem C9_amended_thm (env : DotnetEnv)
    (hbegin : Event.cmd "sonarscanner-begin" ∈ (scan_dotnet env).1)
    (hfail : env.steps.beginOk = false) :
    Event.cmd "sonar-scanner-generic" ∈ (scan_dotnet env).1 ∧
    (env.steps.fallbackOk = true → (scan_dotnet env).2 = Except.ok ()) := by
  unfold scan_dotnet at hbegin ⊢
  by_cases hsln : env.hasSln
  · cases hfb : env.steps.fallbackOk <;>
      simp [hsln, hfail, run_scanner, hfb]
  · rcases hg : (generate_temp_solution env).2 with m | u
    · exfalso
      simp only [hsln, if_false, hg] at hbegin
      exact begin_not_in_prep env hbegin
    · cases hfb : env.steps.fallbackOk <;>
        simp [hsln, hg, hfail, run_scanner, hfb]

theorem C9_amended_witness :
    Event.cmd "sonar-scanner-generic" ∈
      (scan_dotnet ⟨true, [], true, ⟨true, true, false, true, true, true, true, true⟩⟩).1 ∧
    (scan_dotnet ⟨true, [], true, ⟨true, true, false, true, true, true, true, true⟩⟩).2 =
      Except.ok () := by
  have h := C9_amended_thm
    ⟨true, [], true, ⟨true, true, false, true, true, true, true, true⟩⟩
    (by decide) (by decide)
  exact ⟨h.1, h.2 (by decide)⟩

/-- Inputs of `scan_python` (lines 452-489): `pytestOk` is the exit status
of the pytest invocation (`check=True` but wrapped in `try/except`, so a
failure is logged and cannot escape); `coverageExists` is the
`coverage_file.exists()` check (it only adds a CLI argument); `scanOk` is
the sonar-scanner exit status. -/
structure PyEnv where
  pytestOk : Bool
  coverageExists : Bool
  scanOk : Bool
deriving DecidableEq, Repr

/-- Model of `scan_python(repo_dir, key, name)` (lines 452-489): best-effort pytest
with coverage, then an unconditional `run_scanner` invocation. -/
def scan_python (env : PyEnv) : List Event × Except String Unit :=
  let r := run_scanner env.scanOk "sonar-scanner-python"
  (Event.cmd "pytest" :: r.1, r.2)

/-- Inputs of `scan_go` (lines 492-523), shaped like `PyEnv`. -/
structure GoEnv where
  goTestOk : Bool
  coverageExists : Bool
  scanOk : Bool
deriving DecidableEq, Repr

/-- Model of `scan_go(repo_dir, key, name)` (lines 492-523): best-effort `go test`
with coverage, then an unconditional `run_scanner` invocation. -/
def scan_go (env : GoEnv) : List Event × Except String Unit :=
  let r := run_scanner env.scanOk "sonar-scanner-go"
  (Event.cmd "go-test" :: r.1, r.2)

/-- Command-outcome oracles for one whole `detect_and_scan` run: one field
per external command a branch may launch. -/
structure PipelineEnv where
  jmeterScanOk : Bool
  configScanOk : Bool
  java : JavaEnv
  dotnetSteps : DotnetSteps
  py : PyEnv
  go : GoEnv
  genericScanOk : Bool
deriving DecidableEq, Repr

/-- Model of `detect_and_scan(repo_dir, key, name, repo_root)` (lines 529-629),
dispatching on `detect_choice`.  The branch-checkout
(`checkout_default_branch`, `check=False`) and the branch/metadata updates
(`rename_default_branch` and the jmeter-branch `projects/update` POST, both
inside `try/except`) cannot raise and touch no counter, so they are left
out of the trace.  The `config` branch increments `config_only` and then
calls `run_scanner` (which on success increments `scanned` as well); the
`empty` branch increments `empty` and returns. -/
def detect_and_scan (files : List FSEntry) (env : PipelineEnv) :
    List Event × Except String Unit :=
  match detect_choice files with
  | "jmeter" => run_scanner env.jmeterScanOk "sonar-scanner-jmx"
  | "config" =>
      let r := run_scanner env.configScanOk "sonar-scanner-config"
      (Event.bump "config_only" :: r.1, r.2)
  | "empty" => ([Event.bump "empty"], Except.ok ())
  | "java" => scan_java env.java
  | "dotnet" =>
      scan_dotnet
        { hasSln := !(rootSlnFiles files).isEmpty,
          csprojs := (find_csproj_files files).map (fun f => f.name),
          hasCs := hasCsFile files,
          steps := env.dotnetSteps }
  | "python" => scan_python env.py
  | "go" => scan_go env.go
  | _ => run_scanner env.genericScanOk "sonar-scanner-generic"

/-- The SonarQube server's project store, for the registrar claims: the
list of existing project keys.  `GET api/projects/search` reports
`paging.total` = the number of projects matching the key; a successful
`POST api/projects/create` adds the key. -/
structure SonarServer where
  projects : List String
deriving DecidableEq, Repr

/-- Model of `create_project(key, name)` (lines 92-114): query existence by key; if
the search reports a match, print and increment `exists`; otherwise POST
the creation (a remote mutation) and increment `created`. -/
def create_project (srv : SonarServer) (key : String) :
    SonarServer × List Event :=
  if 0 < srv.projects.count key then
    (srv, [Event.bump "exists"])
  else
    ({ projects := srv.projects ++ [key] },
      [Event.cmd "projects-create", Event.bump "created"])

/-- C7: calling `create_project` twice in sequence with the same key
performs the remote create at most once — the second call observes the
project as existing, emits only an `exists` increment, performs no remote
mutation, and leaves the server state unchanged. -/
theorem C7_theorem (srv : SonarServer) (key : String) :
    ((create_project (create_project srv key).1 key).2 = [Event.bump "exists"]) ∧
    ((create_project (create_project srv key).1 key).1 = (create_project srv key).1) ∧
    (List.count (Event.cmd "projects-create")
      ((create_project srv key).2 ++ (create_project (create_project srv key).1 key).2) ≤ 1) := by
  by_cases h : 0 < srv.projects.count key
  · simp [create_project, h]
  · have h2 : 0 < (srv.projects ++ [key]).count key := by
      simp [List.count_append]
    simp [create_project, h, h2]

/-- Whether an `Except` result is a normal return (no Python exception escaped). -/
def resOk : Except String Unit → Bool
  | Except.ok _ => true
  | Except.error _ => false

/-- Final value of the `stats[k]` counter contributed by a trace: the
number of `bump_stat(k)` increments it records.  Increments commute (each
is taken under `stats_lock` and only adds), so this is the counter value
whatever the interleaving of the workers. -/
def bumpCount (tr : List Event) (k : String) : Nat := tr.count (Event.bump k)

/-- Bumps of the four terminal counters recorded by a trace. -/
def terminalSum (tr : List Event) : Nat :=
  bumpCount tr "scanned" + bumpCount tr "config_only" +
    bumpCount tr "empty" + bumpCount tr "failed"

/-- Accounting contract of one pipeline result: exactly one
`scanned`-or-`empty` increment when it returns normally, none when it
raises, and never a `failed` increment (only the job wrapper bumps
`failed`). -/
def pipeCounts (r : List Event × Except String Unit) : Prop :=
  bumpCount r.1 "scanned" + bumpCount r.1 "empty" = (if resOk r.2 then 1 else 0) ∧
  bumpCount r.1 "failed" = 0

theorem count_bump_map_const (k c : String) (l : List String) :
    List.count (Event.bump k) (l.map fun _ => Event.cmd c) = 0 := by
  rw [List.count_eq_zero]
  intro h
  rcases List.mem_map.mp h with ⟨a, _, ha⟩
  exact Event.noConfusion ha

theorem pipeCounts_run_scanner (ok : Bool) (c : String) :
    pipeCounts (run_scanner ok c) := by
  cases ok <;> simp [pipeCounts, run_scanner, bumpCount, resOk]

theorem pipeCounts_scan_java (env : JavaEnv) : pipeCounts (scan_java env) := by
  unfold scan_java
  by_cases hb : env.mavenBuildOk = false
  · simp [pipeCounts, hb, bumpCount, resOk]
  · by_cases he : env.binaries.isEmpty <;> cases hso : env.scannerOk <;>
      simp [pipeCounts, hb, he, hso, run_scanner, bumpCount, resOk]

theorem pipeCounts_scan_python (env : PyEnv) : pipeCounts (scan_python env) := by
  cases hso : env.scanOk <;>
    simp [pipeCounts, scan_python, hso, run_scanner, bumpCount, resOk]

theorem pipeCounts_scan_go (env : GoEnv) : pipeCounts (scan_go env) := by
  cases hso : env.scanOk <;>
    simp [pipeCounts, scan_go, hso, run_scanner, bumpCount, resOk]

theorem bump_not_in_prep (env : DotnetEnv) (k : String) :
    Event.bump k ∉ (generate_temp_solution env).1 := by
  unfold generate_temp_solution
  repeat' split
  all_goals try simp [List.mem_append, List.mem_replicate, List.mem_map]
  all_goals repeat' split
  all_goals simp [List.mem_append, List.mem_replicate, List.mem_map]

theorem count_bump_replicate (k c : String) (n : Nat) :
    List.count (Event.bump k) (List.replicate n (Event.cmd c)) = 0 := by
  rw [List.count_eq_zero]
  intro h
  exact Event.noConfusion (List.eq_of_mem_replicate h)

theorem pipeCounts_scan_dotnet (env : DotnetEnv) : pipeCounts (scan_dotnet env) := by
  unfold scan_dotnet
  by_cases hsln : env.hasSln
  · cases hb : env.steps.beginOk <;> cases hfb : env.steps.fallbackOk <;>
      simp [pipeCounts, hsln, hb, hfb, run_scanner, bumpCount, resOk]
  · rcases hg : (generate_temp_solution env).2 with m | u
    · simp [pipeCounts, hsln, hg, bumpCount, resOk,
        List.count_eq_zero.mpr (bump_not_in_prep env _)]
    · cases hb : env.steps.beginOk <;> cases hfb : env.steps.fallbackOk <;>
        simp [pipeCounts, hsln, hg, hb, hfb, run_scanner, bumpCount, resOk,
          List.count_append, List.count_eq_zero.mpr (bump_not_in_prep env _),
          count_bump_map_const, count_bump_replicate]

theorem pipeCounts_detect_and_scan (files : List FSEntry) (env : PipelineEnv) :
    pipeCounts (detect_and_scan files env) := by
  unfold detect_and_scan
  split
  · exact pipeCounts_run_scanner _ _
  · cases hso : env.configScanOk <;>
      simp [pipeCounts, hso, run_scanner, bumpCount, resOk]
  · simp [pipeCounts, bumpCount, resOk]
  · exact pipeCounts_scan_java _
  · exact pipeCounts_scan_dotnet _
  · exact pipeCounts_scan_python _
  · exact pipeCounts_scan_go _
  · exact pipeCounts_run_scanner _ _

/-- Python whitespace test used by `str.strip()` (the ASCII whitespace
characters; the URLs involved contain no other whitespace). -/
def isPySpace (c : Char) : Bool :=
  c = ' ' || c = '\t' || c = '\n' || c = '\r' || c = Char.ofNat 11 || c = Char.ofNat 12

/-- Python `str.strip()` over a character list: drop whitespace from both
ends. -/
def stripChars (l : List Char) : List Char :=
  ((l.dropWhile isPySpace).reverse.dropWhile isPySpace).reverse

/-- Python `str.rstrip("/")` over a character list. -/
def rstripSlash (l : List Char) : List Char :=
  (l.reverse.dropWhile (fun c => c = '/')).reverse

/-- Python `str.replace(pat, rep)` (all non-overlapping occurrences, left
to right) for a nonempty `pat`, written with a fuel argument so that the
recursion is structural: started with `fuel = l.length`, the fuel never
runs out because every step consumes at least one character. -/
def replaceAllAux (pat rep : List Char) : Nat → List Char → List Char
  | _, [] => []
  | 0, l => l
  | fuel + 1, c :: rest =>
      if pat.isPrefixOf (c :: rest) then
        rep ++ replaceAllAux pat rep fuel (rest.drop (pat.length - 1))
      else
        c :: replaceAllAux pat rep fuel rest

/-- Python `str.replace(pat, rep)` for the nonempty literal patterns used
at lines 74 and 83. -/
def replaceAll (pat rep l : List Char) : List Char :=
  replaceAllAux pat rep l.length l

/-- Characters after the first occurrence of `pat`, or `none` when `pat`
does not occur.  `(afterFirst pat l).map (takeWhile (not slash))` computes
Python's `l.split(pat)[1].split("/")[0]` for the patterns of lines 76-77:
segment `[1]` of the split ends where the next occurrence of `pat` starts,
and since both patterns begin with `"/"`, cutting at the first `"/"` after
the first occurrence gives the same prefix. -/
def afterFirst (pat : List Char) : List Char → Option (List Char)
  | [] => if pat.isEmpty then some [] else none
  | c :: rest =>
      if pat.isPrefixOf (c :: rest) then some ((c :: rest).drop pat.length)
      else afterFirst pat rest

/-- Python's substring containment test `pat in s` over character lists
(this toolchain has `List.isPrefixOf` but no infix test). -/
def isSubList (pat : List Char) : List Char → Bool
  | [] => pat.isEmpty
  | c :: rest => pat.isPrefixOf (c :: rest) || isSubList pat rest

/-- Model of `to_ssh_url(url)` (lines 69-86), the URL normalization a
remote job performs BEFORE its `try` block.  `url.strip().rstrip("/")`;
then for a Bitbucket/Stash URL (`"stash.haesoft.net" in url`) drop the
`/browse` components and either rebuild the SSH URL from the `/projects/`
and `/repos/` components or raise
`ValueError(f"Invalid Bitbucket URL: {url}")` — the `Except.error` case;
then for a GitHub URL rewrite the prefix and ensure a `.git` ending;
otherwise return the URL unchanged. -/
def to_ssh_url (url : String) : Except String String :=
  let u := rstripSlash (stripChars url.data)
  if isSubList "stash.haesoft.net".data u then
    let u2 := replaceAll "/browse/".data "/".data (replaceAll "/browse".data [] u)
    if isSubList "/projects/".data u2 && isSubList "/repos/".data u2 then
      let proj := ((afterFirst "/projects/".data u2).getD []).takeWhile (fun c => !(c = '/'))
      let rep0 := ((afterFirst "/repos/".data u2).getD []).takeWhile (fun c => !(c = '/'))
      let rep := replaceAll ".git".data [] rep0
      Except.ok (String.mk ("ssh://git@stash.haesoft.net:7999/".data ++ proj
        ++ '/' :: rep ++ ".git".data))
    else Except.error ("Invalid Bitbucket URL: " ++ String.mk u2)
  else if "https://github.com/".data.isPrefixOf u then
    let u2 := replaceAll "https://github.com/".data "git@github.com:".data u
    if ".git".data.isSuffixOf u2 then Except.ok (String.mk u2)
    else Except.ok (String.mk (u2 ++ ".git".data))
  else Except.ok (String.mk u)

example : to_ssh_url "https://github.com/acme/widgets" =
    Except.ok "git@github.com:acme/widgets.git" := by decide

example : to_ssh_url "https://stash.haesoft.net/projects/AB/repos/widgets/browse" =
    Except.ok "ssh://git@stash.haesoft.net:7999/AB/widgets.git" := by decide

example : to_ssh_url "https://stash.haesoft.net/scm/proj/widgets.git" =
    Except.error "Invalid Bitbucket URL: https://stash.haesoft.net/scm/proj/widgets.git" := by
  decide

/-- Everything one job depends on: the repository list entry's URL, the
repository tree after synchronization, the registrar outcomes, whether the
clone/pull or the per-repository extra commands raise, and the pipeline
command oracles. -/
structure JobEnv where
  url : String
  files : List FSEntry
  projectExists : Bool
  createOk : Bool
  syncThrows : Bool
  pipeline : PipelineEnv
deriving DecidableEq, Repr

/-- Whether the job's URL normalization returns instead of raising. -/
def to_ssh_ok (env : JobEnv) : Bool :=
  match to_ssh_url env.url with
  | Except.ok _ => true
  | Except.error _ => false

/-- The `create_project(key, name)` call made by a job (lines 92-114), with
the remote outcomes as oracles: when the search finds the key, bump
`exists`; otherwise POST the create — `raise_for_status()` raises when the
POST fails (`createOk = false`), else bump `created`. -/
def create_project_step (env : JobEnv) : List Event × Except String Unit :=
  if env.projectExists then ([Event.bump "exists"], Except.ok ())
  else if env.createOk then
    ([Event.cmd "projects-create", Event.bump "created"], Except.ok ())
  else ([Event.cmd "projects-create"], Except.error "project create failed")

/-- The `try` body of `process_remote_repo` / `process_local_repo`
(lines 652-655 and 668-672): `create_project`, then
`clone_or_update_repo` + `apply_extra_commands` (either may raise, modelled
by `syncThrows`; a fresh `git clone` and the extra commands are
`check=True`), then `detect_and_scan`. -/
def process_body (env : JobEnv) : List Event × Except String Unit :=
  let cp := create_project_step env
  match cp.2 with
  | Except.error m => (cp.1, Except.error m)
  | Except.ok _ =>
      if env.syncThrows then
        (cp.1 ++ [Event.cmd "git-sync"], Except.error "clone or extra commands failed")
      else
        let ds := detect_and_scan env.files env.pipeline
        (cp.1 ++ [Event.cmd "git-sync"] ++ ds.1, ds.2)

/-- One whole job, `process_remote_repo(prefix, url, remote_base)`
(lines 661-675): first `ssh = to_ssh_url(url)` at line 662, BEFORE the
`try` block, so its `ValueError` escapes the job uncaught and uncounted
(the second component); lines 663-665 only derive the key/name/destination
strings, which the trace does not record.  Then the `try` body runs under
`except Exception`: any exception it raises is logged and converted into a
single `failed` increment, and the job returns normally. -/
def process_remote_repo (env : JobEnv) : List Event × Except String Unit :=
  match to_ssh_url env.url with
  | Except.error m => ([], Except.error m)
  | Except.ok _ =>
      let b := process_body env
      match b.2 with
      | Except.ok _ => (b.1, Except.ok ())
      | Except.error _ => (b.1 ++ [Event.bump "failed"], Except.ok ())

/-- The sequential `for job in jobs: job()` loop of `run_jobs`
(lines 635-638), over jobs that return a trace and the exception (if any)
they let escape: a job that raises aborts the remaining iterations. -/
def run_jobs_loop : List (List Event × Except String Unit) → List Event × Except String Unit
  | [] => ([], Except.ok ())
  | p :: rest =>
      match p.2 with
      | Except.error m => (p.1, Except.error m)
      | Except.ok _ =>
          let r := run_jobs_loop rest
          (p.1 ++ r.1, r.2)

/-- Model of `run_jobs(jobs, workers)` (lines 632-645) on the jobs built
by `main` (each a closure over `process_remote_repo`).  The sequential
branch is the loop above, so an exception a job lets escape — which the
URL-normalization step can produce — aborts the remaining jobs; in the
pooled branch (`ThreadPoolExecutor`) each completed job contributes its
own events exactly once and the lock-protected counters are
interleaving-independent, which the theorems express by quantifying over
permutations of this trace. -/
def run_jobs (envs : List JobEnv) : List Event × Except String Unit :=
  run_jobs_loop (envs.map process_remote_repo)

theorem pipeCounts_process_body (env : JobEnv) : pipeCounts (process_body env) := by
  have hd := pipeCounts_detect_and_scan env.files env.pipeline
  unfold process_body create_project_step
  by_cases hex : env.projectExists
  · by_cases hsync : env.syncThrows
    · simp [pipeCounts, hex, hsync, bumpCount, resOk]
    · rcases hd with ⟨hd1, hd2⟩
      simp only [pipeCounts, bumpCount, resOk, List.count_append] at hd1 hd2 ⊢
      simp [hex, hsync, List.count_append, List.count_cons, hd2]
      omega
  · by_cases hcr : env.createOk
    · by_cases hsync : env.syncThrows
      · simp [pipeCounts, hex, hcr, hsync, bumpCount, resOk]
      · rcases hd with ⟨hd1, hd2⟩
        simp only [pipeCounts, bumpCount, resOk, List.count_append] at hd1 hd2 ⊢
        simp [hex, hcr, hsync, List.count_append, List.count_cons, hd2]
        omega
    · simp [pipeCounts, hex, hcr, bumpCount, resOk]

theorem process_repo_counts (env : JobEnv) (hurl : to_ssh_ok env = true) :
    (process_remote_repo env).2 = Except.ok () ∧
    (bumpCount (process_remote_repo env).1 "scanned" +
      bumpCount (process_remote_repo env).1 "empty" +
      bumpCount (process_remote_repo env).1 "failed" = 1) ∧
    (bumpCount (process_remote_repo env).1 "failed" =
      (if resOk (process_body env).2 then 0 else 1)) := by
  rcases pipeCounts_process_body env with ⟨h1, h2⟩
  rcases hu : to_ssh_url env.url with m | s
  · exfalso
    simp [to_ssh_ok, hu] at hurl
  · unfold process_remote_repo
    rcases hres : (process_body env).2 with m | u
    · simp only [hres, resOk, if_false] at h1
      simp only [hu, hres]
      refine ⟨trivial, ?_, ?_⟩ <;>
        (simp [bumpCount, List.count_append, resOk, hres] at h1 h2 ⊢; omega)
    · simp only [hres, resOk, if_true] at h1
      simp only [hu, hres]
      refine ⟨trivial, ?_, ?_⟩ <;>
        (simp [bumpCount, resOk] at h1 h2 ⊢; omega)

theorem run_jobs_eq_join (envs : List JobEnv)
    (hurl : ∀ e ∈ envs, to_ssh_ok e = true) :
    run_jobs envs =
      ((envs.map (fun e => (process_remote_repo e).1)).flatten, Except.ok ()) := by
  induction envs with
  | nil => rfl
  | cons e rest ih =>
      have hok : (process_remote_repo e).2 = Except.ok () :=
        (process_repo_counts e (hurl e (List.mem_cons_self e rest))).1
      have ih' := ih fun x hx => hurl x (List.mem_cons_of_mem e hx)
      simp only [run_jobs, List.map_cons] at ih' ⊢
      simp only [run_jobs_loop, hok]
      rw [ih']
      simp [List.flatten_cons]

theorem terminalSum_flatten (envs : List JobEnv)
    (hurl : ∀ e ∈ envs, to_ssh_ok e = true) :
    terminalSum ((envs.map (fun e => (process_remote_repo e).1)).flatten) =
      envs.length +
        bumpCount ((envs.map (fun e => (process_remote_repo e).1)).flatten) "config_only" := by
  induction envs with
  | nil => rfl
  | cons e rest ih =>
      have h := (process_repo_counts e (hurl e (List.mem_cons_self e rest))).2.1
      have ih' := ih fun x hx => hurl x (List.mem_cons_of_mem e hx)
      simp only [bumpCount] at h
      simp only [List.map_cons, List.flatten_cons, terminalSum, bumpCount,
        List.count_append, List.length_cons] at ih' ⊢
      omega

/-- Pipeline oracle in which every external command succeeds. -/
def allOkPipeline : PipelineEnv :=
  ⟨true, true, ⟨true, ["target/classes"], [], true⟩,
    ⟨true, true, true, true, true, true, true, true⟩,
    ⟨true, true, true⟩, ⟨true, true, true⟩, true⟩

/-- A job over a repository holding a single YAML file, with a well-formed
URL and every remote call and external command succeeding. -/
def configOnlyJob : JobEnv :=
  ⟨"https://github.com/acme/deploy-only", [⟨true, true, "deploy.yaml"⟩],
    true, true, false, allOkPipeline⟩

/-- C2 (counterexample): a batch of one job over a config-classified
repository finishes with the four terminal counters summing to 2, not 1 —
the config branch increments `config_only` and then `run_scanner`
increments `scanned` as well, so that job increments two terminal
counters. -/
theorem C2_counterexample :
    terminalSum (run_jobs [configOnlyJob]).1 = 2 ∧
    [configOnlyJob].length = 1 ∧
    terminalSum (run_jobs [configOnlyJob]).1 ≠ [configOnlyJob].length := by decide

/-- C2 (amended): for a batch of N jobs in which every job's URL
normalization returns (rather than raising before the protected region),
after all jobs have finished — in the sequential runner, or under any
interleaving (permutation) of the recorded events in the pooled runner —
the terminal counters satisfy
`scanned + config_only + empty + failed = N + config_only`; equivalently
`scanned + empty + failed = N`: every such job increments exactly one of
`scanned`, `empty`, `failed`, and jobs routed to the config branch
additionally increment `config_only` once.  (A job whose URL normalization
raises contributes no terminal bump at all, so the equality needs the
normalization hypothesis.) -/
theorem C2_amended_thm (envs : List JobEnv)
    (hurl : ∀ e ∈ envs, to_ssh_ok e = true)
    (tr : List Event) (hperm : List.Perm tr (run_jobs envs).1) :
    terminalSum tr = envs.length + bumpCount tr "config_only" := by
  have hcount : ∀ k, bumpCount tr k = bumpCount (run_jobs envs).1 k :=
    fun k => hperm.count_eq _
  have hflat : (run_jobs envs).1 =
      (envs.map (fun e => (process_remote_repo e).1)).flatten := by
    rw [run_jobs_eq_join envs hurl]
  simp only [terminalSum, hcount, hflat]
  exact terminalSum_flatten envs hurl

theorem C2_amended_witness :
    terminalSum (run_jobs [configOnlyJob]).1 =
      [configOnlyJob].length + bumpCount (run_jobs [configOnlyJob]).1 "config_only" :=
  C2_amended_thm [configOnlyJob] (by decide)
    (run_jobs [configOnlyJob]).1 (List.Perm.refl _)

/-- A job whose repository-list URL is a Bitbucket/Stash URL without the
`/projects/.../repos/...` shape (the standard `scm` clone form), so
`to_ssh_url` raises before the job's `try` block. -/
def badUrlJob : JobEnv :=
  ⟨"https://stash.haesoft.net/scm/proj/widgets.git",
    [⟨true, true, "Main.java"⟩], true, true, false, allOkPipeline⟩

/-- A well-formed sibling job over an empty tree: when it runs, it bumps
the `empty` counter. -/
def emptyTreeJob : JobEnv :=
  ⟨"https://github.com/acme/empty-repo", [], true, true, false, allOkPipeline⟩

/-- A well-formed job whose pipeline throws: the project is absent and the
create POST fails, so the body raises and the wrapper bumps `failed`. -/
def createFailJob : JobEnv :=
  ⟨"https://github.com/acme/widgets", [], false, false, false, allOkPipeline⟩

/-- C5 (counterexample): an uncaught exception inside one job CAN prevent
the remaining sibling jobs from running, and is not always converted into
a `failed` increment — `to_ssh_url(url)` runs at line 662, before the
job's `try/except`, and a malformed Stash URL makes it raise: in the
sequential runner the batch aborts with the sibling job never run (its
`empty` bump, present when it runs alone, is missing) and the `failed`
counter untouched. -/
theorem C5_counterexample :
    (run_jobs [badUrlJob, emptyTreeJob]).2 =
      Except.error "Invalid Bitbucket URL: https://stash.haesoft.net/scm/proj/widgets.git" ∧
    Event.bump "empty" ∉ (run_jobs [badUrlJob, emptyTreeJob]).1 ∧
    bumpCount (run_jobs [badUrlJob, emptyTreeJob]).1 "failed" = 0 ∧
    Event.bump "empty" ∈ (run_jobs [emptyTreeJob]).1 := by decide

/-- C5 (amended): for every batch in which each job's URL normalization
returns (every non-Stash URL, and every Stash URL with the
`/projects/.../repos/...` shape), the failure-isolation contract holds:
the sequential runner — which would abort on the first job that lets an
exception escape — runs every job to completion and ends normally, the
final trace being exactly the concatenation of the jobs' traces (in the
pooled case each job likewise contributes its own trace, merged in some
interleaving), because each job's `except Exception` clause converts any
throw inside the protected region into a `failed` increment instead of
re-raising; and each such job increments `failed` exactly once when its
pipeline threw and not at all otherwise. -/
theorem C5_amended_thm (envs : List JobEnv)
    (hurl : ∀ e ∈ envs, to_ssh_ok e = true) :
    run_jobs envs =
      ((envs.map (fun e => (process_remote_repo e).1)).flatten, Except.ok ()) ∧
    ∀ e ∈ envs, bumpCount (process_remote_repo e).1 "failed" =
      (if resOk (process_body e).2 then 0 else 1) :=
  ⟨run_jobs_eq_join envs hurl,
    fun e he => (process_repo_counts e (hurl e he)).2.2⟩

theorem C5_amended_witness :
    run_jobs [emptyTreeJob, createFailJob] =
      (([emptyTreeJob, createFailJob].map (fun e => (process_remote_repo e).1)).flatten,
        Except.ok ()) ∧
    bumpCount (process_remote_repo createFailJob).1 "failed" =
      (if resOk (process_body createFailJob).2 then 0 else 1) :=
  ⟨(C5_amended_thm [emptyTreeJob, createFailJob] (by decide)).1,
    (C5_amended_thm [emptyTreeJob, createFailJob] (by decide)).2 createFailJob
      (by decide)⟩
